import Mathlib

/-!
Verification development for the IdentdTS repository (src/src/identd/index.ts),
a client for the Ident Protocol (RFC 1413).

Shallow embedding conventions:
- Node `Buffer` values are `List Nat` (byte sequences).
- JavaScript strings are `List Nat` (UTF-16 code units); `strLit` injects a
  Lean string literal.  All strings arising here are ASCII, where code units
  and code points agree.
- JavaScript numbers that hold port values are modelled as `Option Int`,
  where `none` models `NaN` (the only non-integer value `parseInt` can
  produce on these inputs).
- Thrown exceptions are modelled with `Except String`; the carried string is
  the message of the thrown `Error`.  A `TypeError` raised inside the
  `iconv.decode` call when it is handed `undefined` is modelled by the
  distinguished message `TYPE_ERROR`.
-/

set_option maxRecDepth 20000

/-- Injection of a Lean string literal into the code-unit model of a
JavaScript string. -/
def strLit (s : String) : List Nat := s.data.map Char.toNat

/-- White-space code units recognised by JavaScript `trim`, `split` skipping
and `parseInt` (TAB, LF, VT, FF, CR, SP, NBSP, LS, PS, BOM); only the ASCII
ones can occur in the strings this client decodes. -/
def isJsWs (d : Nat) : Bool :=
  d == 9 || d == 10 || d == 11 || d == 12 || d == 13 ||
  d == 32 || d == 160 || d == 8232 || d == 8233 || d == 65279

/-- JavaScript `String.prototype.trim`: drop white space from both ends. -/
def jsTrim (s : List Nat) : List Nat :=
  ((s.dropWhile isJsWs).reverse.dropWhile isJsWs).reverse

/-- Worker for `jsSplit`: walk the code units, emitting the accumulated
segment (in reverse) at each separator; the final segment is always emitted,
matching JavaScript `split`, which keeps a trailing empty part. -/
def jsSplitGo (c : Nat) : List Nat → List Nat → List (List Nat)
  | cur, [] => [cur.reverse]
  | cur, b :: rest =>
    if b = c then cur.reverse :: jsSplitGo c [] rest
    else jsSplitGo c (b :: cur) rest

/-- JavaScript `str.split(sep)` for a one-character separator `c`. -/
def jsSplit (s : List Nat) (c : Nat) : List (List Nat) :=
  jsSplitGo c [] s

/-- Decimal digit test on code units. -/
def isDecDigit (d : Nat) : Bool :=
  decide (48 ≤ d ∧ d ≤ 57)

/-- Hexadecimal digit test on code units. -/
def isHexDigit (d : Nat) : Bool :=
  decide ((48 ≤ d ∧ d ≤ 57) ∨ (65 ≤ d ∧ d ≤ 70) ∨ (97 ≤ d ∧ d ≤ 102))

/-- Value of a string of decimal digit code units, most significant first. -/
def digitsVal (l : List Nat) : Nat :=
  l.foldl (fun a d => a * 10 + (d - 48)) 0

/-- Value of a string of hexadecimal digit code units. -/
def hexVal (l : List Nat) : Nat :=
  l.foldl (fun a d => a * 16 + (if d ≤ 57 then d - 48 else if d ≤ 70 then d - 55 else d - 87)) 0

/-- JavaScript `parseInt(str)` with the radix argument omitted: skip white
space, read an optional sign, detect an optional `0x`/`0X` prefix (radix 16),
then consume the longest digit prefix; no digits gives `NaN`, modelled as
`none`. -/
def jsParseInt (s : List Nat) : Option Int :=
  let t := s.dropWhile isJsWs
  let sign : Int := if t.head? = some 45 then -1 else 1
  let t2 := if t.head? = some 43 ∨ t.head? = some 45 then t.tail else t
  if t2.head? = some 48 ∧ (t2.tail.head? = some 120 ∨ t2.tail.head? = some 88) then
    let ds := (t2.drop 2).takeWhile isHexDigit
    if ds = [] then none else some (sign * (hexVal ds : Int))
  else
    let ds := t2.takeWhile isDecDigit
    if ds = [] then none else some (sign * (digitsVal ds : Int))

/-- JavaScript `parseInt` applied to a possibly-undefined argument:
`parseInt(undefined)` is `NaN`. -/
def jsParseIntOpt (o : Option (List Nat)) : Option Int :=
  match o with
  | none => none
  | some s => jsParseInt s

/-- JavaScript truthiness of a possibly-undefined string: `undefined` and the
empty string are falsy. -/
def jsTruthy (o : Option (List Nat)) : Bool :=
  match o with
  | none => false
  | some s => !s.isEmpty

/-- The `iconv.decode` call of `defaultDecode` with charset US-ASCII on a present
buffer: iconv-lite maps the low 128 bytes to themselves and every high byte
to U+FFFD. -/
def jsDecodeBytes (b : List Nat) : List Nat :=
  b.map fun x => if x < 128 then x else 65533

/-- Message of the `TypeError` thrown when `defaultDecode` is reached with an
undefined array element (iconv-lite reads `.length` of its argument). -/
def TYPE_ERROR : String := "TypeError: Cannot read properties of undefined"

/-- The `defaultDecode` call sites in `parseResponse` receive `arr[i]`, which
may be undefined; decoding undefined throws, decoding a buffer succeeds. -/
def jsDecode (o : Option (List Nat)) : Except String (List Nat) :=
  match o with
  | none => .error TYPE_ERROR
  | some b => .ok (jsDecodeBytes b)

/-! Constants of class `Identd` (source lines 31-50). -/

/-- Code unit of the carriage-return byte, source constant `CR = 0o15`. -/
def CR : Nat := 13

/-- Code unit of the line-feed byte, source constant `LF = 0o12`. -/
def LF : Nat := 10

/-- Code unit of the colon byte, source constant `COLON = 0o72`. -/
def COLON : Nat := 58

/-- Source constant `ABORT_CONNECTION_LENGTH`. -/
def ABORT_CONNECTION_LENGTH : Nat := 1000

/-- Source constant `MAX_USERID_LENGTH`. -/
def MAX_USERID_LENGTH : Nat := 512

/-- Source constant `MAX_TOKEN_LENGTH`. -/
def MAX_TOKEN_LENGTH : Nat := 64

/-- Source error message `UNDEFINED_SERVER_PORT`. -/
def UNDEFINED_SERVER_PORT : String := "Undefined server prot!"

/-- Source error message `UNDEFINED_LOCAL_PORT`. -/
def UNDEFINED_LOCAL_PORT : String := "Undefined local port!"

/-- Source error message `INVALID_RESPONSE_LENGTH`. -/
def INVALID_RESPONSE_LENGTH : String := "Invalid response length!"

/-- Source error message `INVALID_STATUS_RESPONSE`. -/
def INVALID_STATUS_RESPONSE : String := "Invalid status response!"

/-- Source error message `INVALID_OPSYS_RESPONSE`. -/
def INVALID_OPSYS_RESPONSE : String := "Invalid opsys response!"

/-- Source error message `INVALID_CHARSET_RESPONSE`. -/
def INVALID_CHARSET_RESPONSE : String := "Invalid charset response!"

/-- Source error message `INVALID_USERID_LENGTH`. -/
def INVALID_USERID_LENGTH : String := "Invalid userid length!"

/-- Source error message `INVALID_ERROR_TOKEN`. -/
def INVALID_ERROR_TOKEN : String := "Invalid error token length!"

/-! The lookup tables consumed by the validators. -/

/-- The `ERROR_TOKENS` table exported by `src/src/identd/index.ts`
(the `errors` import of the main module). -/
def ERROR_TOKENS : List (List Nat) :=
  [strLit "INVALID-PORT", strLit "NO-USER", strLit "HIDDEN-USER", strLit "UNKNOWN-ERROR"]

/-- Modelled from the spec: the external known-opsys table
(`./lib/opsys.js`, not among the sources).  The grammar in the spec enumerates
`UNIX` as an opsys token, and the known-charset names (such as `US-ASCII`)
are not opsys tokens. -/
def OPSYS_LIST : List (List Nat) :=
  [strLit "UNIX", strLit "VMS", strLit "WIN32"]

/-- Modelled from the spec: the external known-charset table
(`./lib/charset.js`, not among the sources), the character-set names of
RFC 1340.  It contains the default charset `US-ASCII`; `KLINGON` (spec
scenario) and opsys tokens such as `UNIX` are not charset names. -/
def CHARSETS : List (List Nat) :=
  [strLit "US-ASCII", strLit "ISO-8859-1", strLit "UTF-8"]

/-! Validators (source lines 218-238). -/

/-- Source `isValidOS`: the opsys is `OTHER` or a member of the opsys table. -/
def isValidOS (opsys : List Nat) : Bool :=
  opsys == strLit "OTHER" || OPSYS_LIST.contains opsys

/-- Source `isValidCharset`: membership in the charset table. -/
def isValidCharset (charset : List Nat) : Bool :=
  CHARSETS.contains charset

/-- Source `isValidUserID`: decoded length in the closed interval 1..512. -/
def isValidUserID (userid : List Nat) : Bool :=
  decide (0 < userid.length) && decide (userid.length ≤ MAX_USERID_LENGTH)

/-- Source `isValidErrorToken`: length in 2..64 and either a table member or
a leading `X` (code unit 88). -/
def isValidErrorToken (e : List Nat) : Bool :=
  decide (1 < e.length) && decide (e.length ≤ MAX_TOKEN_LENGTH) &&
    (ERROR_TOKENS.contains e || e.headD 0 == 88)

/-! Buffer scanning (source lines 117-121 and 196-206). -/

/-- JavaScript `Buffer.prototype.indexOf` for a single byte: index of the
first occurrence, `-1` when absent. -/
def jsIndexOf : List Nat → Nat → Int
  | [], _ => -1
  | x :: rest, b =>
    if x = b then 0
    else
      let r := jsIndexOf rest b
      if r = -1 then -1 else r + 1

/-- Source `isEOL`: the index of the first CR, provided the first LF sits
directly after it; otherwise `-1`. -/
def isEOL (buff : List Nat) : Int :=
  let index := jsIndexOf buff CR
  if index ≠ -1 ∧ jsIndexOf buff LF - 1 = index then index else -1

/-- Worker for `splitBuffer`: the source loop pushes the bytes before each
separator (possibly an empty segment) and, after the loop, pushes the
remainder only when it is non-empty. -/
def splitBufferGo (c : Nat) : List Nat → List Nat → List (List Nat)
  | cur, [] => if cur.length > 0 then [cur.reverse] else []
  | cur, b :: rest =>
    if b = c then cur.reverse :: splitBufferGo c [] rest
    else splitBufferGo c (b :: cur) rest

/-- Source `splitBuffer`: split a buffer at every occurrence of `char`,
keeping interior empty segments and dropping a trailing empty one. -/
def splitBuffer (buff : List Nat) (char : Nat) : List (List Nat) :=
  splitBufferGo char [] buff

/-! The response data model (source interface `Response`). -/

/-- The `userid` field is `string | Buffer`: a decoded string when no
charset is present, the raw bytes of segment 3 when one is. -/
inductive JsUserId where
  | ofStr (s : List Nat)
  | ofBuf (b : List Nat)
deriving DecidableEq, Repr

/-- Source interface `Response`; absent optional fields are `none`, and the
port fields hold `none` when `parseInt` produced `NaN`. -/
structure Response where
  server_port : Option Int := none
  client_port : Option Int := none
  status : List Nat := []
  opsys : Option (List Nat) := none
  userid : Option JsUserId := none
  error : Option (List Nat) := none
  charset : Option (List Nat) := none
deriving DecidableEq, Repr

/-- Port-pair extraction from the decoded segment-0 string (source lines
163-165): split on the comma and `parseInt` both parts, with no validation
of the results. -/
def portsOfStr (str : List Nat) : Option Int × Option Int :=
  let foo := jsSplit str 44
  (jsParseIntOpt (foo.get? 0), jsParseIntOpt (foo.get? 1))

/-- Source lines 162-165 as applied to the raw segment bytes: decode with
the default charset, then extract the port pair. -/
def parsePortPair (seg : List Nat) : Option Int × Option Int :=
  portsOfStr (jsDecodeBytes seg)

/-- Continuation of `parseResponse` after the port pair has been read
(source lines 167-189).  Only segments 1, 2 and 3 of `arr` are consulted;
the port pair is written into the result records unchecked.  Note that the
source passes `response.opsys` (not the charset) to `isValidCharset`. -/
def parseAfterPorts (ports : Option Int × Option Int) (arr : List (List Nat)) :
    Except String Response :=
  match jsDecode (arr.get? 1) with
  | .error e => .error e
  | .ok s1 =>
    let status := jsTrim s1
    match jsDecode (arr.get? 2) with
    | .error e => .error e
    | .ok s2 =>
      let str := jsTrim s2
      if status = strLit "USERID" then
        let foo := jsSplit str 44
        let opsys := jsTrim (foo.headD [])
        if isValidOS opsys = false then .error INVALID_OPSYS_RESPONSE
        else if jsTruthy (foo.get? 1) = true then
          let charset := jsTrim ((foo.get? 1).getD [])
          if isValidCharset opsys = false then .error INVALID_CHARSET_RESPONSE
          else .ok ⟨ports.1, ports.2, status, some opsys,
                    (arr.get? 3).map JsUserId.ofBuf, none, some charset⟩
        else
          match jsDecode (arr.get? 3) with
          | .error e => .error e
          | .ok u =>
            if isValidUserID u = false then .error INVALID_USERID_LENGTH
            else .ok ⟨ports.1, ports.2, status, some opsys,
                      some (JsUserId.ofStr u), none, none⟩
      else if status = strLit "ERROR" then
        if isValidErrorToken str = false then .error INVALID_ERROR_TOKEN
        else .ok ⟨ports.1, ports.2, status, none, none, some str, none⟩
      else .error INVALID_STATUS_RESPONSE

/-- Source `parseResponse` (lines 157-190): split the reply line on the
colon byte, decode segment 0 and read the port pair, then apply the
status-dependent grammar. -/
def parseResponse (buff : List Nat) : Except String Response :=
  let arr := splitBuffer buff COLON
  match jsDecode (arr.get? 0) with
  | .error e => .error e
  | .ok str => parseAfterPorts (portsOfStr str) arr

/-- Source `buildRequest` rendering of an integer (the template literal
interpolation of a JavaScript number holding a natural): worker with
explicit fuel, peeling decimal digits. -/
def natToCodesGo : Nat → Nat → List Nat
  | 0, _ => []
  | fuel + 1, n =>
    if n < 10 then [48 + n]
    else natToCodesGo fuel (n / 10) ++ [48 + n % 10]

/-- Decimal code-unit rendering of a natural number. -/
def natToCodes (n : Nat) : List Nat := natToCodesGo (n + 1) n

/-- Source `buildRequest` (lines 214-216): the template literal
`server_port`, comma, one space, `client_port`, then CR LF. -/
def buildRequest (server_port client_port : Nat) : List Nat :=
  natToCodes server_port ++ strLit ", " ++ natToCodes client_port ++ strLit "\r\n"

/-! Request options and their validation (source lines 7-13 and 52-59). -/

/-- Source interface `Options`; optional fields not supplied by the caller
are `none`. -/
structure Options where
  address : String
  port : Option Int := none
  server_port : Int
  client_port : Int
  abort : Option Bool := none
deriving DecidableEq, Repr

/-- Source `checkOptions`: falsiness checks on `address`, `server_port` and
`client_port` (the empty string and the number 0 are falsy), then the
defaults `port = 113` and `abort = true` are applied. -/
def checkOptions (o : Options) : Except String Options :=
  if o.address = "" then .error "Undefined ip!"
  else if o.server_port = 0 then .error UNDEFINED_SERVER_PORT
  else if o.client_port = 0 then .error UNDEFINED_LOCAL_PORT
  else .ok ⟨o.address, some (o.port.getD 113), o.server_port, o.client_port,
            some (o.abort.getD true)⟩

/-! The read loop (source lines 76-99). -/

instance {α β : Type} [DecidableEq α] [DecidableEq β] : DecidableEq (Except α β) := fun a b =>
  match a, b with
  | .ok x, .ok y => if h : x = y then .isTrue (by rw [h]) else .isFalse (by simp [h])
  | .ok _, .error _ => .isFalse (by simp)
  | .error _, .ok _ => .isFalse (by simp)
  | .error x, .error y => if h : x = y then .isTrue (by rw [h]) else .isFalse (by simp [h])

/-- Outcome of one invocation of the `onread` callback: settle the pending
promise (resolve with the parsed reply or reject with the parse error,
keeping the bytes after the terminator), abort the connection
(`sock.destroy()` followed by throwing the given error), or keep reading
with the grown accumulation buffer. -/
inductive ReadAction where
  | settle (result : Except String Response) (leftover : List Nat)
  | abortConn (e : String)
  | continueRead (data : List Nat)
deriving DecidableEq, Repr

/-- One step of the `onread` callback: append the chunk, scan the whole
accumulated buffer with `isEOL`; on a hit, cut the reply line before the
terminator and settle; otherwise abort when `abort` is set and the
accumulated length exceeds `ABORT_CONNECTION_LENGTH`; otherwise continue. -/
def onreadStep (abort : Bool) (data chunk : List Nat) : ReadAction :=
  let d := data ++ chunk
  let index := isEOL d
  if index ≠ -1 then
    .settle (parseResponse (d.take index.toNat)) (d.drop (index.toNat + 2))
  else if abort = true ∧ d.length > ABORT_CONNECTION_LENGTH then
    .abortConn INVALID_RESPONSE_LENGTH
  else
    .continueRead d

/-! Helper observers used in the claim statements. -/

/-- The userid field of a parse outcome, when one was produced. -/
def useridOf (r : Except String Response) : Option JsUserId :=
  match r with
  | .ok resp => resp.userid
  | .error _ => none

/-- The error message of a parse outcome, when it failed. -/
def errOf (r : Except String Response) : Option String :=
  match r with
  | .ok _ => none
  | .error e => some e

/-! Small index lemmas used to state evaluations. -/

/-- Element 1 of a list with two or more exposed heads. -/
theorem listGet1 {α : Type} (a b : α) (l : List α) : (a :: b :: l).get? 1 = some b := rfl

/-- Element 3 of a list with three exposed heads. -/
theorem listGet3 {α : Type} (a b c : α) (l : List α) : (a :: b :: c :: l).get? 3 = l.get? 0 := rfl

/-! Lemmas about `jsIndexOf`. -/

/-- The JavaScript index is never below `-1`. -/
theorem jsIndexOf_ge_neg_one (l : List Nat) (b : Nat) : -1 ≤ jsIndexOf l b := by
  induction l with
  | nil => simp [jsIndexOf]
  | cons x rest ih =>
    simp only [jsIndexOf]
    split
    · omega
    · split <;> omega

/-- The scan returns `-1` exactly when the byte is absent. -/
theorem jsIndexOf_neg_one_iff (l : List Nat) (b : Nat) : jsIndexOf l b = -1 ↔ b ∉ l := by
  induction l with
  | nil => simp [jsIndexOf]
  | cons x rest ih =>
    by_cases hx : x = b
    · subst hx
      simp [jsIndexOf]
    · simp only [jsIndexOf, if_neg hx]
      by_cases hr : jsIndexOf rest b = -1
      · rw [if_pos hr]
        simp only [List.mem_cons, eq_self_iff_true, true_iff]
        intro hc
        rcases hc with h1 | h1
        · exact hx h1.symm
        · exact (ih.mp hr) h1
      · rw [if_neg hr]
        have hge := jsIndexOf_ge_neg_one rest b
        constructor
        · intro h
          exfalso
          omega
        · intro h
          exfalso
          exact hr (ih.mpr fun hm => h (List.mem_cons.mpr (Or.inr hm)))

/-- With the byte absent from the prefix, the scan lands on the marked
occurrence. -/
theorem jsIndexOf_append_cons (pre post : List Nat) (b : Nat) (h : b ∉ pre) :
    jsIndexOf (pre ++ b :: post) b = pre.length := by
  induction pre with
  | nil => simp [jsIndexOf]
  | cons x pre ih =>
    have hx : ¬ x = b := fun e => h (by simp [e])
    have ih' := ih fun hm => h (List.mem_cons_of_mem _ hm)
    rw [List.cons_append]
    show (if x = b then (0 : Int) else
        if jsIndexOf (pre ++ b :: post) b = -1 then -1
        else jsIndexOf (pre ++ b :: post) b + 1) = ((x :: pre).length : Int)
    rw [if_neg hx, ih', if_neg (by omega : ¬ ((pre.length : Int) = -1))]
    simp only [List.length_cons]
    omega

/-- A non-negative scan result decomposes the list at the first occurrence. -/
theorem jsIndexOf_eq_coe (l : List Nat) (b : Nat) :
    ∀ n : Nat, jsIndexOf l b = (n : Int) →
      ∃ pre post, l = pre ++ b :: post ∧ b ∉ pre ∧ pre.length = n := by
  induction l with
  | nil =>
    intro n h
    exfalso
    simp only [jsIndexOf] at h
    omega
  | cons x rest ih =>
    intro n h
    by_cases hx : x = b
    · subst hx
      have h0 : (0 : Int) = (n : Int) := by
        rw [show jsIndexOf (x :: rest) x = 0 from by simp [jsIndexOf]] at h
        exact h
      refine ⟨[], rest, rfl, by simp, ?_⟩
      simp only [List.length_nil]
      omega
    · simp only [jsIndexOf, if_neg hx] at h
      by_cases hr : jsIndexOf rest b = -1
      · rw [if_pos hr] at h
        exfalso
        omega
      · rw [if_neg hr] at h
        have hge := jsIndexOf_ge_neg_one rest b
        have hn : 1 ≤ n := by omega
        have hrest : jsIndexOf rest b = ((n - 1 : Nat) : Int) := by omega
        obtain ⟨pre, post, hsplit, hmem, hlen⟩ := ih (n - 1) hrest
        refine ⟨x :: pre, post, by simp [hsplit], ?_, ?_⟩
        · intro hc
          rcases List.mem_cons.mp hc with h1 | h1
          · exact hx h1.symm
          · exact hmem h1
        · simp only [List.length_cons, hlen]
          omega

/-! Lemmas about `isEOL`. -/

/-- When the prefix holds neither CR nor LF, the scan accepts the marked
CR-LF pair and reports its offset. -/
theorem isEOL_append_clean (pre post : List Nat) (hcr : CR ∉ pre) (hlf : LF ∉ pre) :
    isEOL (pre ++ CR :: LF :: post) = (pre.length : Int) := by
  have hmem : LF ∉ pre ++ [CR] := by
    intro hm
    rcases List.mem_append.mp hm with h1 | h1
    · exact hlf h1
    · simp [LF, CR] at h1
  have h13 : jsIndexOf (pre ++ CR :: LF :: post) CR = (pre.length : Int) :=
    jsIndexOf_append_cons pre (LF :: post) CR hcr
  have h10 : jsIndexOf (pre ++ CR :: LF :: post) LF = (pre.length : Int) + 1 := by
    have h := jsIndexOf_append_cons (pre ++ [CR]) post LF hmem
    rw [show (pre ++ [CR]) ++ LF :: post = pre ++ CR :: LF :: post from by simp] at h
    rw [h]
    simp
  show (if jsIndexOf (pre ++ CR :: LF :: post) CR ≠ -1 ∧
      jsIndexOf (pre ++ CR :: LF :: post) LF - 1 = jsIndexOf (pre ++ CR :: LF :: post) CR then
      jsIndexOf (pre ++ CR :: LF :: post) CR else -1) = (pre.length : Int)
  rw [h13, h10]
  split
  · rfl
  · rename_i hcond
    exfalso
    exact hcond ⟨by omega, by omega⟩

/-- Without any CR in the buffer the scan reports no terminator. -/
theorem isEOL_no_cr (buff : List Nat) (h : CR ∉ buff) : isEOL buff = -1 := by
  have h1 : jsIndexOf buff CR = -1 := (jsIndexOf_neg_one_iff buff CR).mpr h
  show (if jsIndexOf buff CR ≠ -1 ∧ jsIndexOf buff LF - 1 = jsIndexOf buff CR then
      jsIndexOf buff CR else -1) = -1
  split
  · rename_i hcond
    exact absurd h1 hcond.1
  · rfl

/-- The scan succeeds exactly on buffers whose first CR is directly followed
by the first LF. -/
theorem isEOL_ne_iff (buff : List Nat) :
    isEOL buff ≠ -1 ↔ ∃ pre post, buff = pre ++ CR :: LF :: post ∧ CR ∉ pre ∧ LF ∉ pre := by
  constructor
  · intro h
    by_cases hc : jsIndexOf buff CR ≠ -1 ∧ jsIndexOf buff LF - 1 = jsIndexOf buff CR
    · obtain ⟨h1, h2⟩ := hc
      have hge := jsIndexOf_ge_neg_one buff CR
      obtain ⟨n, hn⟩ : ∃ n : Nat, jsIndexOf buff CR = (n : Int) :=
        ⟨(jsIndexOf buff CR).toNat, by omega⟩
      obtain ⟨pre, post, hsplit, hmem, hlen⟩ := jsIndexOf_eq_coe buff CR n hn
      have hlf : jsIndexOf buff LF = ((n + 1 : Nat) : Int) := by push_cast; omega
      obtain ⟨pre2, post2, hsplit2, hmem2, hlen2⟩ := jsIndexOf_eq_coe buff LF (n + 1) hlf
      have e1 : buff.take (n + 1) = pre ++ [CR] := by
        rw [hsplit, List.take_append_eq_append_take, List.take_of_length_le (by omega),
          show n + 1 - pre.length = 1 from by omega]
        rfl
      have e2 : buff.take (n + 1) = pre2 := by
        rw [hsplit2, List.take_append_eq_append_take, List.take_of_length_le (by omega),
          show n + 1 - pre2.length = 0 from by omega]
        simp
      have htake : pre2 = pre ++ [CR] := by rw [← e2, e1]
      refine ⟨pre, post2, ?_, hmem, ?_⟩
      · rw [hsplit2, htake]
        simp
      · intro hm
        exact hmem2 (htake ▸ List.mem_append.mpr (Or.inl hm))
    · exfalso
      apply h
      show (if jsIndexOf buff CR ≠ -1 ∧ jsIndexOf buff LF - 1 = jsIndexOf buff CR then
          jsIndexOf buff CR else -1) = -1
      rw [if_neg hc]
  · rintro ⟨pre, post, rfl, hcr, hlf⟩
    rw [isEOL_append_clean pre post hcr hlf]
    omega

/-! Lemmas about `splitBuffer` and `jsSplit`. -/

/-- The source loop emits the separator-free prefix as one segment and
continues after the separator. -/
theorem splitBufferGo_append_cons (c : Nat) :
    ∀ (s cur rest : List Nat), c ∉ s →
      splitBufferGo c cur (s ++ c :: rest) = (cur.reverse ++ s) :: splitBufferGo c [] rest := by
  intro s
  induction s with
  | nil =>
    intro cur rest _
    simp [splitBufferGo]
  | cons x s ih =>
    intro cur rest h
    have hx : ¬ x = c := fun e => h (by simp [e])
    have ih' := ih (x :: cur) rest fun hm => h (List.mem_cons_of_mem _ hm)
    simp only [List.cons_append, splitBufferGo, if_neg hx, List.append_eq]
    rw [ih']
    simp

/-- On separator-free input the source loop emits at most the accumulated
segment, and nothing when that segment is empty. -/
theorem splitBufferGo_no_sep (c : Nat) :
    ∀ (s cur : List Nat), c ∉ s →
      splitBufferGo c cur s =
        if 0 < cur.length + s.length then [cur.reverse ++ s] else [] := by
  intro s
  induction s with
  | nil =>
    intro cur _
    by_cases hcur : 0 < cur.length <;> simp [splitBufferGo, hcur]
  | cons x s ih =>
    intro cur h
    have hx : ¬ x = c := fun e => h (by simp [e])
    simp only [List.cons_append, splitBufferGo, if_neg hx]
    rw [ih (x :: cur) fun hm => h (List.mem_cons_of_mem _ hm)]
    rw [if_pos (by simp), if_pos (by simp)]
    simp

/-- Top-level form of `splitBufferGo_append_cons`. -/
theorem splitBuffer_cons (c : Nat) (s rest : List Nat) (h : c ∉ s) :
    splitBuffer (s ++ c :: rest) c = s :: splitBuffer rest c := by
  unfold splitBuffer
  rw [splitBufferGo_append_cons c s [] rest h]
  simp

/-- A non-empty separator-free buffer splits into itself alone. -/
theorem splitBuffer_single (c : Nat) (s : List Nat) (h : c ∉ s) (hne : s ≠ []) :
    splitBuffer s c = [s] := by
  unfold splitBuffer
  rw [splitBufferGo_no_sep c s [] h]
  rw [if_pos (by simp [List.length_pos.mpr hne])]
  simp

/-- JavaScript `split` emits the separator-free prefix and continues. -/
theorem jsSplitGo_append_cons (c : Nat) :
    ∀ (s cur rest : List Nat), c ∉ s →
      jsSplitGo c cur (s ++ c :: rest) = (cur.reverse ++ s) :: jsSplitGo c [] rest := by
  intro s
  induction s with
  | nil =>
    intro cur rest _
    simp [jsSplitGo]
  | cons x s ih =>
    intro cur rest h
    have hx : ¬ x = c := fun e => h (by simp [e])
    have ih' := ih (x :: cur) rest fun hm => h (List.mem_cons_of_mem _ hm)
    simp only [List.cons_append, jsSplitGo, if_neg hx, List.append_eq]
    rw [ih']
    simp

/-- JavaScript `split` keeps the final segment even when empty. -/
theorem jsSplitGo_no_sep (c : Nat) :
    ∀ (s cur : List Nat), c ∉ s → jsSplitGo c cur s = [cur.reverse ++ s] := by
  intro s
  induction s with
  | nil =>
    intro cur _
    simp [jsSplitGo]
  | cons x s ih =>
    intro cur h
    have hx : ¬ x = c := fun e => h (by simp [e])
    simp only [jsSplitGo, if_neg hx]
    rw [ih (x :: cur) fun hm => h (List.mem_cons_of_mem _ hm)]
    simp

/-- A string with exactly one separator splits into the two parts. -/
theorem jsSplit_pair (c : Nat) (s1 s2 : List Nat) (h1 : c ∉ s1) (h2 : c ∉ s2) :
    jsSplit (s1 ++ c :: s2) c = [s1, s2] := by
  unfold jsSplit
  rw [jsSplitGo_append_cons c s1 [] s2 h1]
  rw [jsSplitGo_no_sep c s2 [] h2]
  simp

/-! Lemmas about decimal rendering and `jsParseInt`. -/

/-- Every emitted code unit is a decimal digit. -/
theorem natToCodesGo_digits :
    ∀ (fuel n : Nat), n < fuel → ∀ d ∈ natToCodesGo fuel n, 48 ≤ d ∧ d ≤ 57 := by
  intro fuel
  induction fuel with
  | zero => intro n h; omega
  | succ f ih =>
    intro n h d hm
    by_cases h10 : n < 10
    · simp only [natToCodesGo, if_pos h10, List.mem_singleton] at hm
      omega
    · simp only [natToCodesGo, if_neg h10] at hm
      rcases List.mem_append.mp hm with h1 | h1
      · have hdiv : n / 10 < n := Nat.div_lt_self (by omega) (by omega)
        exact ih (n / 10) (by omega) d h1
      · simp only [List.mem_singleton] at h1
        have := Nat.mod_lt n (show 0 < 10 by omega)
        omega

/-- The rendering is never empty. -/
theorem natToCodesGo_ne_nil : ∀ (fuel n : Nat), n < fuel → natToCodesGo fuel n ≠ [] := by
  intro fuel
  induction fuel with
  | zero => intro n h; omega
  | succ f ih =>
    intro n h
    by_cases h10 : n < 10
    · simp [natToCodesGo, if_pos h10]
    · simp only [natToCodesGo, if_neg h10]
      simp

/-- Folding a digit onto the accumulated value. -/
theorem digitsVal_append (l : List Nat) (d : Nat) :
    digitsVal (l ++ [d]) = digitsVal l * 10 + (d - 48) := by
  simp [digitsVal, List.foldl_append]

/-- The decimal rendering evaluates back to the rendered number. -/
theorem digitsVal_natToCodesGo : ∀ (fuel n : Nat), n < fuel →
    digitsVal (natToCodesGo fuel n) = n := by
  intro fuel
  induction fuel with
  | zero => intro n h; omega
  | succ f ih =>
    intro n h
    by_cases h10 : n < 10
    · simp only [natToCodesGo, if_pos h10, digitsVal, List.foldl_cons, List.foldl_nil]
      omega
    · have hdiv : n / 10 < n := Nat.div_lt_self (by omega) (by omega)
      simp only [natToCodesGo, if_neg h10]
      rw [digitsVal_append, ih (n / 10) (by omega)]
      omega

/-- A digit code unit is not JavaScript white space. -/
theorem isJsWs_digit (d : Nat) (h48 : 48 ≤ d) (h57 : d ≤ 57) : isJsWs d = false := by
  simp only [isJsWs, Bool.or_eq_false_iff, beq_eq_false_iff_ne, ne_eq]
  omega

/-- A list all of whose elements satisfy the predicate is its own
`takeWhile`. -/
theorem takeWhile_all {p : Nat → Bool} :
    ∀ l : List Nat, (∀ x ∈ l, p x = true) → l.takeWhile p = l := by
  intro l
  induction l with
  | nil => intro _; rfl
  | cons x rest ih =>
    intro h
    rw [List.takeWhile_cons, if_pos (h x (by simp))]
    rw [ih fun y hy => h y (List.mem_cons_of_mem _ hy)]

/-- `parseInt` on a pure digit string returns its decimal value. -/
theorem jsParseInt_digits (l : List Nat) (hne : l ≠ [])
    (hd : ∀ x ∈ l, 48 ≤ x ∧ x ≤ 57) : jsParseInt l = some ((digitsVal l : Nat) : Int) := by
  obtain ⟨d0, r, rfl⟩ := List.exists_cons_of_ne_nil hne
  have hd0 := hd d0 (by simp)
  have hdrop : (d0 :: r).dropWhile isJsWs = d0 :: r := by
    rw [List.dropWhile_cons, if_neg (by simp [isJsWs_digit d0 hd0.1 hd0.2])]
  have hsign : ¬ ((d0 :: r).head? = some 45) := by
    simp only [List.head?_cons, Option.some.injEq]
    omega
  have hplus : ¬ ((d0 :: r).head? = some 43 ∨ (d0 :: r).head? = some 45) := by
    simp only [List.head?_cons, Option.some.injEq]
    omega
  have hhex : ¬ ((d0 :: r).head? = some 48 ∧
      ((d0 :: r).tail.head? = some 120 ∨ (d0 :: r).tail.head? = some 88)) := by
    rintro ⟨-, h2⟩
    cases r with
    | nil => simp at h2
    | cons x xs =>
      have hx := hd x (by simp)
      simp only [List.tail_cons, List.head?_cons, Option.some.injEq] at h2
      omega
  have htake : (d0 :: r).takeWhile isDecDigit = d0 :: r := by
    apply takeWhile_all
    intro x hx
    simp only [isDecDigit, decide_eq_true_eq]
    exact hd x hx
  simp only [jsParseInt, hdrop, if_neg hsign, if_neg hplus, if_neg hhex, htake,
    if_neg (show ¬ (d0 :: r = []) from by simp)]
  rw [one_mul]

/-- A single leading space is skipped by `parseInt`. -/
theorem jsParseInt_space (l : List Nat) : jsParseInt (32 :: l) = jsParseInt l := by
  have h : (32 :: l).dropWhile isJsWs = l.dropWhile isJsWs := by
    rw [List.dropWhile_cons, if_pos (by simp [isJsWs])]
  unfold jsParseInt
  rw [h]

/-- Decoding with the default charset is the identity on ASCII bytes. -/
theorem jsDecodeBytes_ascii (l : List Nat) (h : ∀ x ∈ l, x < 128) :
    jsDecodeBytes l = l := by
  induction l with
  | nil => rfl
  | cons x rest ih =>
    simp only [jsDecodeBytes, List.map_cons, if_pos (h x (by simp))]
    have := ih fun y hy => h y (List.mem_cons_of_mem _ hy)
    simp only [jsDecodeBytes] at this
    rw [this]

/-! Structural lemmas about `parseResponse`. -/

/-- The continuation after the port pair never reads segment 0. -/
theorem parseAfterPorts_tail (p : Option Int × Option Int) (x y : List Nat)
    (t : List (List Nat)) : parseAfterPorts p (x :: t) = parseAfterPorts p (y :: t) := rfl

/-- The continuation fails identically whatever port pair it is given. -/
theorem errOf_parseAfterPorts (p q : Option Int × Option Int) (arr : List (List Nat)) :
    errOf (parseAfterPorts p arr) = errOf (parseAfterPorts q arr) := by
  unfold parseAfterPorts
  cases jsDecode (arr.get? 1) with
  | error e => rfl
  | ok s1 =>
    cases jsDecode (arr.get? 2) with
    | error e => rfl
    | ok s2 =>
      simp only
      split
      · split
        · rfl
        · split
          · split
            · rfl
            · rfl
          · cases jsDecode (arr.get? 3) with
            | error e => rfl
            | ok u =>
              simp only
              split
              · rfl
              · rfl
      · split
        · split
          · rfl
          · rfl
        · rfl

/-- Unfolding `parseResponse` once the leading segment is isolated. -/
theorem parseResponse_of_split (buff : List Nat) (a : List Nat) (rest : List (List Nat))
    (h : splitBuffer buff COLON = a :: rest) :
    parseResponse buff = parseAfterPorts (portsOfStr (jsDecodeBytes a)) (a :: rest) := by
  simp only [parseResponse, h]
  rfl

/-- With segments `USERID` and `UNIX` in place and no charset, the parse is
decided by the fourth segment alone. -/
theorem parseAfterPorts_unix_userid (p : Option Int × Option Int) (s0 : List Nat)
    (t : List (List Nat)) :
    parseAfterPorts p (s0 :: strLit "USERID" :: strLit "UNIX" :: t) =
      match jsDecode (t.get? 0) with
      | .error e => .error e
      | .ok u =>
        if isValidUserID u = false then .error INVALID_USERID_LENGTH
        else .ok ⟨p.1, p.2, strLit "USERID", some (strLit "UNIX"),
                  some (JsUserId.ofStr u), none, none⟩ := rfl

/-- Evaluation of the continuation on a three-headed segment list: the
grammar applied to decoded segments 1 and 2, with segment 3 left symbolic. -/
theorem parseAfterPorts_three (p : Option Int × Option Int) (a b c : List Nat)
    (rest : List (List Nat)) :
    parseAfterPorts p (a :: b :: c :: rest) =
      (if jsTrim (jsDecodeBytes b) = strLit "USERID" then
        let foo := jsSplit (jsTrim (jsDecodeBytes c)) 44
        let opsys := jsTrim (foo.headD [])
        if isValidOS opsys = false then .error INVALID_OPSYS_RESPONSE
        else if jsTruthy (foo.get? 1) = true then
          if isValidCharset opsys = false then .error INVALID_CHARSET_RESPONSE
          else .ok ⟨p.1, p.2, jsTrim (jsDecodeBytes b), some opsys,
                    (rest.get? 0).map JsUserId.ofBuf, none,
                    some (jsTrim ((foo.get? 1).getD []))⟩
        else
          match jsDecode (rest.get? 0) with
          | .error e => .error e
          | .ok u =>
            if isValidUserID u = false then .error INVALID_USERID_LENGTH
            else .ok ⟨p.1, p.2, jsTrim (jsDecodeBytes b), some opsys,
                      some (JsUserId.ofStr u), none, none⟩
      else if jsTrim (jsDecodeBytes b) = strLit "ERROR" then
        if isValidErrorToken (jsTrim (jsDecodeBytes c)) = false then .error INVALID_ERROR_TOKEN
        else .ok ⟨p.1, p.2, jsTrim (jsDecodeBytes b), none, none,
                  some (jsTrim (jsDecodeBytes c)), none⟩
      else .error INVALID_STATUS_RESPONSE) := rfl

/-- A decoded, trimmed status that is neither `USERID` nor `ERROR` always
produces the invalid-status error. -/
theorem parseAfterPorts_bad_status (p : Option Int × Option Int) (a b c : List Nat)
    (rest : List (List Nat)) (h1 : jsTrim (jsDecodeBytes b) ≠ strLit "USERID")
    (h2 : jsTrim (jsDecodeBytes b) ≠ strLit "ERROR") :
    parseAfterPorts p (a :: b :: c :: rest) = .error INVALID_STATUS_RESPONSE := by
  rw [parseAfterPorts_three, if_neg h1, if_neg h2]

/-- A reply line of the shape `1,2:USERID:UNIX:<tail>` is decided by the
first segment of the split tail alone. -/
theorem parseResponse_userid_line (t : List Nat) :
    parseResponse (strLit "1,2:USERID:UNIX:" ++ t) =
      match (splitBuffer t COLON).get? 0 with
      | none => .error TYPE_ERROR
      | some useg =>
        if isValidUserID (jsDecodeBytes useg) = false then .error INVALID_USERID_LENGTH
        else .ok ⟨some 1, some 2, strLit "USERID", some (strLit "UNIX"),
                  some (JsUserId.ofStr (jsDecodeBytes useg)), none, none⟩ := by
  have e1 : strLit "1,2:USERID:UNIX:" ++ t =
      strLit "1,2" ++ COLON :: (strLit "USERID" ++ COLON :: (strLit "UNIX" ++ COLON :: t)) := rfl
  rw [e1]
  have hs : splitBuffer
      (strLit "1,2" ++ COLON :: (strLit "USERID" ++ COLON :: (strLit "UNIX" ++ COLON :: t)))
      COLON = strLit "1,2" :: strLit "USERID" :: strLit "UNIX" :: splitBuffer t COLON := by
    rw [splitBuffer_cons COLON _ _ (by decide), splitBuffer_cons COLON _ _ (by decide),
      splitBuffer_cons COLON _ _ (by decide)]
  rw [parseResponse_of_split _ _ _ hs, parseAfterPorts_unix_userid]
  rw [show portsOfStr (jsDecodeBytes (strLit "1,2")) = (some 1, some 2) from by decide]
  cases h0 : (splitBuffer t COLON).get? 0 with
  | none => rfl
  | some useg => rfl

/-! Claim theorems. -/

/-- Claim C1, amended: the terminator scan recognizes a terminator exactly
when the first carriage-return byte of the accumulated buffer is immediately
followed by the first line-feed byte (not merely some CR-LF pair); a lone CR,
a lone LF, or a first CR and first LF separated by other bytes never match,
and on a match the reply line is the bytes before that CR-LF pair. -/
theorem isEOL_first_cr_first_lf :
    (∀ buff : List Nat, isEOL buff ≠ -1 ↔
      ∃ pre post, buff = pre ++ CR :: LF :: post ∧ CR ∉ pre ∧ LF ∉ pre) ∧
    (∀ pre post : List Nat, CR ∉ pre → LF ∉ pre →
      isEOL (pre ++ CR :: LF :: post) = (pre.length : Int) ∧
      (pre ++ CR :: LF :: post).take (isEOL (pre ++ CR :: LF :: post)).toNat = pre) := by
  constructor
  · exact isEOL_ne_iff
  · intro pre post hcr hlf
    have h := isEOL_append_clean pre post hcr hlf
    refine ⟨h, ?_⟩
    rw [h]
    simp [List.take_left]

/-- Claim C1 witness: a clean one-byte prefix before CR-LF is matched at
offset 1 and returned as the reply line. -/
theorem isEOL_first_cr_first_lf_witness :
    (CR ∉ ([97] : List Nat)) ∧ (LF ∉ ([97] : List Nat)) ∧
    isEOL [97, 13, 10, 98] = 1 ∧
    (([97, 13, 10, 98] : List Nat)).take (isEOL [97, 13, 10, 98]).toNat = [97] := by
  have h := isEOL_first_cr_first_lf.2 [97] [98] (by decide) (by decide)
  exact ⟨by decide, by decide, h.1, h.2⟩

/-- Claim C1 counterexample: the buffer LF CR LF contains a CR immediately
followed by an LF, yet the scan reports no terminator, because the first LF
precedes the first CR. -/
theorem isEOL_misses_later_crlf :
    ([10, 13, 10] : List Nat) = [10] ++ CR :: LF :: [] ∧
    isEOL [10, 13, 10] = -1 := by
  exact ⟨by decide, by decide⟩

/-- Claim C2, code bug: the charset US-ASCII is in the known-charset set and
UNIX is a valid opsys, so by the spec the reply `1,2:USERID:UNIX,US-ASCII:bob`
must pass the charset check; the code instead throws the invalid-charset
error because it passes the opsys value to `isValidCharset`. -/
theorem charset_check_validates_opsys :
    isValidCharset (strLit "US-ASCII") = true ∧
    isValidOS (strLit "UNIX") = true ∧
    isValidCharset (strLit "UNIX") = false ∧
    parseResponse (strLit "1,2:USERID:UNIX,US-ASCII:bob") =
      .error INVALID_CHARSET_RESPONSE := by
  exact ⟨by decide, by decide, by decide, by decide⟩

/-- Claim C3, amended: the parser splits on every colon byte, so a reply
with extra colons yields more than four segments, and the userid of a
USERID reply is only the bytes strictly between the third and fourth colons;
everything from the fourth colon on is dropped. -/
theorem parse_userid_truncated_at_fourth_colon (u1 u2 : List Nat) (hc : COLON ∉ u1)
    (h1 : 1 ≤ u1.length) (h2 : u1.length ≤ 512) :
    parseResponse (strLit "1,2:USERID:UNIX:" ++ (u1 ++ COLON :: u2)) =
      .ok ⟨some 1, some 2, strLit "USERID", some (strLit "UNIX"),
           some (JsUserId.ofStr (jsDecodeBytes u1)), none, none⟩ := by
  rw [parseResponse_userid_line, splitBuffer_cons COLON u1 u2 hc]
  have hv : isValidUserID (jsDecodeBytes u1) = true := by
    simp only [isValidUserID, jsDecodeBytes, List.length_map, MAX_USERID_LENGTH,
      Bool.and_eq_true, decide_eq_true_eq]
    exact ⟨by omega, by omega⟩
  simp only [List.get?_cons_zero]
  simp [hv]

/-- Claim C3 witness: the userid of `1,2:USERID:UNIX:bob:smith` is `bob`. -/
theorem parse_userid_truncated_at_fourth_colon_witness :
    COLON ∉ strLit "bob" ∧
    parseResponse (strLit "1,2:USERID:UNIX:" ++ (strLit "bob" ++ COLON :: strLit "smith")) =
      .ok ⟨some 1, some 2, strLit "USERID", some (strLit "UNIX"),
           some (JsUserId.ofStr (jsDecodeBytes (strLit "bob"))), none, none⟩ :=
  ⟨by decide, parse_userid_truncated_at_fourth_colon (strLit "bob") (strLit "smith")
    (by decide) (by decide) (by decide)⟩

/-- Claim C3 counterexample: `1,2:USERID:UNIX:bob:smith` splits into five
segments, not at most four, and the resulting userid is `bob`, not the whole
remainder `bob:smith`. -/
theorem splitBuffer_five_segments :
    (splitBuffer (strLit "1,2:USERID:UNIX:bob:smith") COLON).length = 5 ∧
    useridOf (parseResponse (strLit "1,2:USERID:UNIX:bob:smith")) =
      some (JsUserId.ofStr (strLit "bob")) ∧
    strLit "bob" ≠ strLit "bob:smith" := by
  exact ⟨by decide, by decide, by decide⟩

/-- Claim C4: with abort enabled, an unterminated accumulation of exactly
1000 bytes keeps reading, and any accumulation beyond 1000 bytes destroys
the socket and fails the operation with the invalid-response-length error. -/
theorem onread_abort_threshold (data chunk : List Nat)
    (h : isEOL (data ++ chunk) = -1) :
    ((data ++ chunk).length = 1000 →
      onreadStep true data chunk = ReadAction.continueRead (data ++ chunk)) ∧
    ((data ++ chunk).length > 1000 →
      onreadStep true data chunk = ReadAction.abortConn INVALID_RESPONSE_LENGTH) := by
  constructor
  · intro hlen
    simp only [onreadStep]
    rw [h]
    split
    · rename_i hcond
      exact absurd rfl hcond
    · split
      · rename_i hc2
        exfalso
        rw [hlen] at hc2
        exact absurd hc2.2 (by decide)
      · rfl
  · intro hlen
    simp only [onreadStep]
    rw [h]
    split
    · rename_i hcond
      exact absurd rfl hcond
    · split
      · rfl
      · rename_i hc2
        exact absurd ⟨by trivial, hlen⟩ hc2

/-- Claim C4 witness: 1000 accumulated bytes continue reading; 1001 abort
with the invalid-response-length error. -/
theorem onread_abort_threshold_witness :
    onreadStep true (List.replicate 999 97) [97] =
      ReadAction.continueRead (List.replicate 999 97 ++ [97]) ∧
    onreadStep true (List.replicate 1000 97) [97] =
      ReadAction.abortConn INVALID_RESPONSE_LENGTH := by
  have hcr1 : CR ∉ List.replicate 999 97 ++ [97] := by
    intro hm
    rcases List.mem_append.mp hm with h1 | h1
    · rw [List.mem_replicate] at h1
      exact absurd h1.2 (by decide)
    · rw [List.mem_singleton] at h1
      exact absurd h1 (by decide)
  have hcr2 : CR ∉ List.replicate 1000 97 ++ [97] := by
    intro hm
    rcases List.mem_append.mp hm with h1 | h1
    · rw [List.mem_replicate] at h1
      exact absurd h1.2 (by decide)
    · rw [List.mem_singleton] at h1
      exact absurd h1 (by decide)
  have hlen1 : (List.replicate 999 97 ++ ([97] : List Nat)).length = 1000 := by
    rw [List.length_append, List.length_replicate]
    rfl
  have hlen2 : (List.replicate 1000 97 ++ ([97] : List Nat)).length > 1000 := by
    rw [List.length_append, List.length_replicate]
    decide
  exact ⟨(onread_abort_threshold _ _ (isEOL_no_cr _ hcr1)).1 hlen1,
    (onread_abort_threshold _ _ (isEOL_no_cr _ hcr2)).2 hlen2⟩

/-- Claim C5, amended: the RFC example line parses to server port 6193,
client port 23, status USERID, opsys UNIX, and the userid ` stjohns`, which
keeps the space after the final colon (the source treats spaces after the
separator as part of the identifier). -/
theorem parse_rfc_example_line :
    parseResponse (strLit "6193, 23 : USERID : UNIX : stjohns") =
      .ok ⟨some 6193, some 23, strLit "USERID", some (strLit "UNIX"),
           some (JsUserId.ofStr (strLit " stjohns")), none, none⟩ := by
  decide

/-- Claim C5 counterexample: the userid produced for the RFC example line is
` stjohns` with a leading space, not exactly `stjohns` as the claim states. -/
theorem parse_rfc_example_userid_space :
    useridOf (parseResponse (strLit "6193, 23 : USERID : UNIX : stjohns")) =
      some (JsUserId.ofStr (strLit " stjohns")) ∧
    strLit " stjohns" ≠ strLit "stjohns" := by
  exact ⟨by decide, by decide⟩

/-- Claim C6: with no charset present, a 512-byte userid segment is
accepted, a 513-byte one fails with the invalid-userid-length error, and an
empty (length 0) userid segment fails with the same error. -/
theorem userid_length_boundaries :
    (∀ u : List Nat, COLON ∉ u → u.length = 512 →
      parseResponse (strLit "1,2:USERID:UNIX:" ++ u) =
        .ok ⟨some 1, some 2, strLit "USERID", some (strLit "UNIX"),
             some (JsUserId.ofStr (jsDecodeBytes u)), none, none⟩) ∧
    (∀ u : List Nat, COLON ∉ u → u.length = 513 →
      parseResponse (strLit "1,2:USERID:UNIX:" ++ u) = .error INVALID_USERID_LENGTH) ∧
    parseResponse (strLit "1,2:USERID:UNIX::") = .error INVALID_USERID_LENGTH := by
  refine ⟨?_, ?_, by decide⟩
  · intro u hc hlen
    have hne : u ≠ [] := by
      intro e
      rw [e] at hlen
      simp at hlen
    rw [parseResponse_userid_line, splitBuffer_single COLON u hc hne]
    have hv : isValidUserID (jsDecodeBytes u) = true := by
      simp [isValidUserID, jsDecodeBytes, MAX_USERID_LENGTH, hlen]
    simp only [List.get?_cons_zero]
    simp [hv]
  · intro u hc hlen
    have hne : u ≠ [] := by
      intro e
      rw [e] at hlen
      simp at hlen
    rw [parseResponse_userid_line, splitBuffer_single COLON u hc hne]
    have hv : isValidUserID (jsDecodeBytes u) = false := by
      simp [isValidUserID, jsDecodeBytes, MAX_USERID_LENGTH, hlen]
    simp only [List.get?_cons_zero]
    simp [hv]

/-- Claim C6 witness: 512 bytes of `a` are accepted and 513 are rejected. -/
theorem userid_length_boundaries_witness :
    COLON ∉ List.replicate 512 97 ∧
    parseResponse (strLit "1,2:USERID:UNIX:" ++ List.replicate 512 97) =
      .ok ⟨some 1, some 2, strLit "USERID", some (strLit "UNIX"),
           some (JsUserId.ofStr (jsDecodeBytes (List.replicate 512 97))), none, none⟩ ∧
    parseResponse (strLit "1,2:USERID:UNIX:" ++ List.replicate 513 97) =
      .error INVALID_USERID_LENGTH := by
  have hmem1 : COLON ∉ List.replicate 512 97 := by
    intro hm
    rw [List.mem_replicate] at hm
    exact absurd hm.2 (by decide)
  have hmem2 : COLON ∉ List.replicate 513 97 := by
    intro hm
    rw [List.mem_replicate] at hm
    exact absurd hm.2 (by decide)
  exact ⟨hmem1, userid_length_boundaries.1 _ hmem1 (List.length_replicate 512 97),
    userid_length_boundaries.2.1 _ hmem2 (List.length_replicate 513 97)⟩

/-- Claim C7: for valid 1-5 digit ports, the built request line is the
decimal server port, a comma, exactly one space, the decimal client port,
then CR LF, and parsing the port-pair text back through the parser path
(decode, split on the comma, `parseInt`) recovers the same two integers. -/
theorem buildRequest_roundtrip (s c : Nat) (hs1 : 1 ≤ s) (hs2 : s ≤ 99999)
    (hc1 : 1 ≤ c) (hc2 : c ≤ 99999) :
    buildRequest s c = natToCodes s ++ [44, 32] ++ natToCodes c ++ [13, 10] ∧
    parsePortPair (natToCodes s ++ 44 :: 32 :: natToCodes c) =
      (some (s : Int), some (c : Int)) := by
  have hdig_s : ∀ d ∈ natToCodes s, 48 ≤ d ∧ d ≤ 57 :=
    natToCodesGo_digits (s + 1) s (by omega)
  have hdig_c : ∀ d ∈ natToCodes c, 48 ≤ d ∧ d ≤ 57 :=
    natToCodesGo_digits (c + 1) c (by omega)
  constructor
  · rfl
  · have hlt : ∀ x ∈ natToCodes s ++ 44 :: 32 :: natToCodes c, x < 128 := by
      intro x hx
      rcases List.mem_append.mp hx with h1 | h1
      · have := hdig_s x h1
        omega
      · rcases List.mem_cons.mp h1 with h1 | h1
        · omega
        · rcases List.mem_cons.mp h1 with h1 | h1
          · omega
          · have := hdig_c x h1
            omega
    have h44s : (44 : Nat) ∉ natToCodes s := by
      intro hm
      have := hdig_s 44 hm
      omega
    have h44c : (44 : Nat) ∉ 32 :: natToCodes c := by
      intro hm
      rcases List.mem_cons.mp hm with h1 | h1
      · omega
      · have := hdig_c 44 h1
        omega
    unfold parsePortPair
    rw [jsDecodeBytes_ascii _ hlt]
    unfold portsOfStr
    rw [jsSplit_pair 44 (natToCodes s) (32 :: natToCodes c) h44s h44c]
    simp only [List.get?_cons_zero, listGet1, jsParseIntOpt]
    rw [jsParseInt_digits (natToCodes s) (natToCodesGo_ne_nil (s + 1) s (by omega)) hdig_s,
      jsParseInt_space,
      jsParseInt_digits (natToCodes c) (natToCodesGo_ne_nil (c + 1) c (by omega)) hdig_c,
      show digitsVal (natToCodes s) = s from digitsVal_natToCodesGo (s + 1) s (by omega),
      show digitsVal (natToCodes c) = c from digitsVal_natToCodesGo (c + 1) c (by omega)]

/-- Claim C7 witness: the RFC example ports 6193 and 23 round-trip. -/
theorem buildRequest_roundtrip_witness :
    (1 ≤ 6193 ∧ 6193 ≤ 99999 ∧ 1 ≤ 23 ∧ 23 ≤ 99999) ∧
    buildRequest 6193 23 = natToCodes 6193 ++ [44, 32] ++ natToCodes 23 ++ [13, 10] ∧
    parsePortPair (natToCodes 6193 ++ 44 :: 32 :: natToCodes 23) =
      (some 6193, some 23) :=
  ⟨by decide, buildRequest_roundtrip 6193 23 (by decide) (by decide) (by decide) (by decide)⟩

/-- Claim C8, amended: when the reply line splits into at least three
segments and the decoded, trimmed status segment is neither USERID nor
ERROR, parsing fails with the invalid-status error; when the line has only
two segments, parsing instead fails with the decode type error raised on the
missing third segment before the status is examined. -/
theorem invalid_status_with_three_segments (buff a b c : List Nat)
    (rest : List (List Nat)) (h : splitBuffer buff COLON = a :: b :: c :: rest)
    (h1 : jsTrim (jsDecodeBytes b) ≠ strLit "USERID")
    (h2 : jsTrim (jsDecodeBytes b) ≠ strLit "ERROR") :
    parseResponse buff = .error INVALID_STATUS_RESPONSE := by
  rw [parseResponse_of_split buff a _ h]
  exact parseAfterPorts_bad_status _ a b c rest h1 h2

/-- Claim C8 witness: `1,2:FOOBAR:x` fails with the invalid-status error. -/
theorem invalid_status_with_three_segments_witness :
    splitBuffer (strLit "1,2:FOOBAR:x") COLON =
      [strLit "1,2", strLit "FOOBAR", strLit "x"] ∧
    parseResponse (strLit "1,2:FOOBAR:x") = .error INVALID_STATUS_RESPONSE := by
  refine ⟨by decide, ?_⟩
  exact invalid_status_with_three_segments _ (strLit "1,2") (strLit "FOOBAR") (strLit "x") []
    (by decide) (by decide) (by decide)

/-- Claim C8 counterexample: `1,2:FOOBAR` has a status segment equal to
FOOBAR, yet parsing fails with the decode type error, not with the
invalid-status error, because segment 2 is decoded before the status check
and the line has no segment 2. -/
theorem two_segment_bad_status_type_error :
    parseResponse (strLit "1,2:FOOBAR") = .error TYPE_ERROR ∧
    TYPE_ERROR ≠ INVALID_STATUS_RESPONSE := by
  exact ⟨by decide, by decide⟩

/-- Claim C9, amended: for options with a non-empty address, a server port
equal to 0 fails fast with the undefined-server-port error before any
network activity, and with a non-zero server port a client port equal to 0
fails with the undefined-local-port error: the falsiness check treats the
number 0 as a missing field. -/
theorem checkOptions_zero_ports :
    (∀ o : Options, o.address ≠ "" → o.server_port = 0 →
      checkOptions o = .error UNDEFINED_SERVER_PORT) ∧
    (∀ o : Options, o.address ≠ "" → o.server_port ≠ 0 → o.client_port = 0 →
      checkOptions o = .error UNDEFINED_LOCAL_PORT) := by
  constructor
  · intro o ha hs
    unfold checkOptions
    rw [if_neg ha, if_pos hs]
  · intro o ha hs hc
    unfold checkOptions
    rw [if_neg ha, if_neg hs, if_pos hc]

/-- Claim C9 witness: concrete options with port 0 fail with the matching
undefined-port errors. -/
theorem checkOptions_zero_ports_witness :
    checkOptions ⟨"h", none, 0, 4444, none⟩ = .error UNDEFINED_SERVER_PORT ∧
    checkOptions ⟨"h", none, 113, 0, none⟩ = .error UNDEFINED_LOCAL_PORT :=
  ⟨checkOptions_zero_ports.1 ⟨"h", none, 0, 4444, none⟩ (by decide) rfl,
   checkOptions_zero_ports.2 ⟨"h", none, 113, 0, none⟩ (by decide) (by decide) rfl⟩

/-- Claim C9 counterexample: an options value whose server port is 0 but
whose address is empty fails with the undefined-ip error, not with the
undefined-server-port error, because the address is checked first. -/
theorem checkOptions_empty_address_cex :
    checkOptions ⟨"", none, 0, 4444, none⟩ = .error "Undefined ip!" ∧
    "Undefined ip!" ≠ UNDEFINED_SERVER_PORT := by
  exact ⟨by decide, by decide⟩

/-- Claim C10: the parser raises no error for a malformed port pair: the
failure behaviour of a reply line does not depend on its first segment at
all, and a line whose port parts are not decimal numbers parses to a
Response whose ports are NaN. -/
theorem malformed_port_pair_no_error :
    (∀ s0 t rest : List Nat, COLON ∉ s0 → COLON ∉ t →
      errOf (parseResponse (s0 ++ COLON :: rest)) =
        errOf (parseResponse (t ++ COLON :: rest))) ∧
    parseResponse (strLit "abc,def:USERID:UNIX:bob") =
      .ok ⟨none, none, strLit "USERID", some (strLit "UNIX"),
           some (JsUserId.ofStr (strLit "bob")), none, none⟩ := by
  constructor
  · intro s0 t rest h1 h2
    rw [parseResponse_of_split _ _ _ (splitBuffer_cons COLON s0 rest h1)]
    rw [parseResponse_of_split _ _ _ (splitBuffer_cons COLON t rest h2)]
    rw [parseAfterPorts_tail _ s0 t _]
    exact errOf_parseAfterPorts _ _ _
  · decide

/-- Claim C10 witness: a garbage port pair and a well-formed one fail (or
succeed) identically on the same remainder. -/
theorem malformed_port_pair_no_error_witness :
    COLON ∉ strLit "abc,def" ∧
    errOf (parseResponse (strLit "abc,def" ++ COLON :: strLit "USERID:UNIX:bob")) =
      errOf (parseResponse (strLit "1,2" ++ COLON :: strLit "USERID:UNIX:bob")) :=
  ⟨by decide, malformed_port_pair_no_error.1 (strLit "abc,def") (strLit "1,2")
    (strLit "USERID:UNIX:bob") (by decide) (by decide)⟩
